import Mathlib

/-!
Verification of the acquisition-orchestration core of the fastapi_scraper
repository: a shallow embedding of `src/proxy_manager.py` (ProxyManager),
`src/delay_manager.py` (DelayManager), `src/scraper.py` (AmazonScraper) and
`src/main.py` (get_product_info), together with theorems settling the frozen
claims about the natural-language specification.

Modelling conventions:
- `datetime` timestamps and delays are rationals, measured in seconds
  (`timedelta(minutes=30)` is 1800, `timedelta(minutes=5)` is 300).
- Python dicts keyed by the proxy address string become association lists;
  the proxy dicts themselves are shared mutable objects in Python (the same
  object sits in `proxies`, `working_proxies` and `failed_proxies`), so the
  endpoint record is held in a single `store` keyed by address and the three
  lists hold addresses.
- `random.uniform` draws and jitter are passed as explicit parameters; the
  theorems quantify over all draws in the documented ranges.
- network outcomes are supplied by an oracle `env : Nat -> ReqOutcome`
  giving the classified outcome of the request on each loop iteration.
-/

/-- One proxy endpoint record, as created by `ProxyManager.load_proxies`:
`{'proxy': addr, 'last_used': None, 'failures': 0, 'successes': 0}`.
The address itself is the association-list key. -/
structure Endpoint where
  successes : Nat
  failures : Nat
  last_used : Option ℚ
deriving DecidableEq, Repr

/-- The mutable state of `ProxyManager`: the three lists hold the addresses of
the endpoint dicts (which are shared objects, modelled by `store`), and
`proxy_timeouts` is the `Dict[str, datetime]` of cooldown deadlines. -/
structure Pool where
  proxies : List String
  working_proxies : List String
  failed_proxies : List String
  proxy_timeouts : List (String × ℚ)
  store : List (String × Endpoint)
deriving DecidableEq, Repr

/-- Dict lookup in the shared endpoint store (first matching key). -/
def lookupStore : List (String × Endpoint) → String → Option Endpoint
  | [], _ => none
  | (b, e) :: rest, a => if b = a then some e else lookupStore rest a

/-- In-place mutation of the endpoint dict with address `a` (Python mutates the
shared dict object, so every list referencing it sees the update). -/
def updateStore (st : List (String × Endpoint)) (a : String) (f : Endpoint → Endpoint) :
    List (String × Endpoint) :=
  st.map fun p => if p.1 = a then (p.1, f p.2) else p

/-- Dict lookup in `proxy_timeouts` (first matching key). -/
def lookupTimeout : List (String × ℚ) → String → Option ℚ
  | [], _ => none
  | (b, t) :: rest, a => if b = a then some t else lookupTimeout rest a

/-- Dict assignment `proxy_timeouts[addr] = v` (overwrite or append). -/
def setTimeout (ts : List (String × ℚ)) (a : String) (v : ℚ) : List (String × ℚ) :=
  if ts.any fun p => p.1 = a then ts.map fun p => if p.1 = a then (p.1, v) else p
  else ts ++ [(a, v)]

/-- First component of the selection key in `ProxyManager.get_proxy`:
`successes / (successes + failures + 1) if (successes + failures) > 0 else 1`. -/
def score (e : Endpoint) : ℚ :=
  if 0 < e.successes + e.failures then
    (e.successes : ℚ) / ((e.successes : ℚ) + (e.failures : ℚ) + 1)
  else 1

/-- The full selection key of `get_proxy` at time `now`:
`(score, -((now - last_used).total_seconds() if last_used else 0))`. -/
def selKey (now : ℚ) (e : Endpoint) : ℚ × ℚ :=
  (score e, -(match e.last_used with | some t => now - t | none => 0))

/-- Strict lexicographic "greater than" on pairs, as Python compares the
2-tuples produced by the `key` function of `max`. -/
def lexGtB (x y : ℚ × ℚ) : Bool :=
  decide (y.1 < x.1) || (decide (y.1 = x.1) && decide (y.2 < x.2))

/-- Lexicographic "less or equal" on pairs (the complement of `lexGtB`). -/
def lexLe (x y : ℚ × ℚ) : Prop :=
  x.1 < y.1 ∨ (x.1 = y.1 ∧ x.2 ≤ y.2)

/-- Python's `max(iterable, key=...)`: fold keeping the first element whose key
is not strictly exceeded by a later element (ties keep the earlier element). -/
def pyMax {α : Type} (gt : α → α → Bool) : α → List α → α
  | best, [] => best
  | best, x :: xs => pyMax gt (if gt x best then x else best) xs

/-- The `available_proxies` list of `get_proxy`: working endpoints whose
address has no timeout entry or whose timeout lies strictly in the past
(`datetime.now() > proxy_timeouts[...]`). Entries are paired with their
current record from the shared store. -/
def availableOf (pool : Pool) (now : ℚ) : List (String × Endpoint) :=
  (pool.working_proxies.filterMap fun a =>
      (lookupStore pool.store a).map fun e => (a, e)).filter fun p =>
    match lookupTimeout pool.proxy_timeouts p.1 with
    | none => true
    | some t => decide (t < now)

/-- `ProxyManager.get_proxy`: returns `None` when no working proxy is
available, otherwise the available endpoint maximising the selection key,
setting its `last_used` to now. -/
def get_proxy (pool : Pool) (now : ℚ) : Option String × Pool :=
  if pool.working_proxies.isEmpty then (none, pool)
  else
    match availableOf pool now with
    | [] => (none, pool)
    | p :: ps =>
      let chosen := pyMax (fun x y => lexGtB (selKey now x.2) (selKey now y.2)) p ps
      (some chosen.1,
        { pool with
            store := updateStore pool.store chosen.1 fun e => { e with last_used := some now } })

/-- `ProxyManager.mark_proxy_failed`: increment `failures`; once the updated
count reaches 3, set the cooldown deadline to `now + 30` minutes, remove the
endpoint from `working_proxies` and append it to `failed_proxies`. -/
def mark_proxy_failed (pool : Pool) (a : String) (now : ℚ) : Pool :=
  let store := updateStore pool.store a fun e => { e with failures := e.failures + 1 }
  let fails := match lookupStore store a with | some e => e.failures | none => 0
  if 3 ≤ fails then
    { proxies := pool.proxies
      working_proxies := pool.working_proxies.erase a
      failed_proxies := pool.failed_proxies ++ [a]
      proxy_timeouts := setTimeout pool.proxy_timeouts a (now + 1800)
      store := store }
  else { pool with store := store }

/-- `ProxyManager.mark_proxy_success`: increment `successes`; if `failures` is
positive, decrement it by one. -/
def mark_proxy_success (pool : Pool) (a : String) : Pool :=
  { pool with
      store := updateStore pool.store a fun e =>
        { e with
            successes := e.successes + 1
            failures := if 0 < e.failures then e.failures - 1 else e.failures } }

/-- The three pacing modes of `DelayManager`. -/
inductive Mode where
  | aggressive
  | normal
  | conservative
deriving DecidableEq, Repr

/-- `DelayManager.base_delays`: the `(min, max)` base-delay range per mode. -/
def base_delays : Mode → ℚ × ℚ
  | .normal => (2, 5)
  | .aggressive => (1, 3)
  | .conservative => (5, 10)

/-- The mutable state of `DelayManager`. -/
structure DelayState where
  request_history : List (String × List ℚ)
  current_mode : Mode
  mode_history : List Mode
  last_mode_change : ℚ
deriving DecidableEq, Repr

/-- History-dict lookup (missing key behaves as the empty list, matching the
`if url not in self.request_history: ... = []` initialisation). -/
def histLookup : List (String × List ℚ) → String → List ℚ
  | [], _ => []
  | (u, l) :: rest, url => if u = url then l else histLookup rest url

/-- History-dict assignment (overwrite or append). -/
def histSet (h : List (String × List ℚ)) (url : String) (l : List ℚ) :
    List (String × List ℚ) :=
  if h.any fun p => p.1 = url then h.map fun p => if p.1 = url then (p.1, l) else p
  else h ++ [(url, l)]

/-- `DelayManager._cleanup_history`: drop timestamps older than 5 minutes and
delete URLs whose list becomes empty. -/
def cleanup_history (h : List (String × List ℚ)) (now : ℚ) : List (String × List ℚ) :=
  (h.map fun p => (p.1, p.2.filter fun t => decide (now - 300 < t))).filter fun p =>
    !p.2.isEmpty

/-- `DelayManager._calculate_frequency`: number of timestamps within the last
minute. -/
def calculate_frequency (entries : List ℚ) (now : ℚ) : Nat :=
  entries.countP fun t => decide (now - 60 < t)

/-- `DelayManager._adjust_mode`: no change within 60 seconds of the last mode
change; otherwise pick the mode from the frequency thresholds and, if it
differs from the current mode, transition and stamp `last_mode_change`. -/
def adjust_mode (s : DelayState) (frequency : Nat) (now : ℚ) : DelayState :=
  if now - s.last_mode_change < 60 then s
  else
    let new_mode :=
      if 5 < frequency then Mode.conservative
      else if frequency < 2 then Mode.aggressive
      else Mode.normal
    if new_mode = s.current_mode then s
    else
      { s with
          current_mode := new_mode
          mode_history := s.mode_history ++ [new_mode]
          last_mode_change := now }

/-- `DelayManager.get_delay`: clean up history, record `now`, compute the
frequency over the last minute, adjust the mode, then return
`uniform(min, max) + jitter`, multiplied by `1.5 ** (frequency - 3)` when
`frequency > 3`. The uniform draw `b` and jitter `j` are passed explicitly. -/
def get_delay (s : DelayState) (url : String) (now b j : ℚ) : ℚ × DelayState :=
  let h₁ := cleanup_history s.request_history now
  let entries := histLookup h₁ url ++ [now]
  let frequency := calculate_frequency entries now
  let s₁ := adjust_mode { s with request_history := histSet h₁ url entries } frequency now
  let delay := b + j
  ((if 3 < frequency then delay * (3 / 2) ^ (frequency - 3) else delay), s₁)

/-- The request frequency that `get_delay` computes at time `now` (the count
includes the timestamp just recorded). -/
def freqAfter (s : DelayState) (url : String) (now : ℚ) : Nat :=
  calculate_frequency (histLookup (cleanup_history s.request_history now) url ++ [now]) now

/-- Run a sequence of `get_delay` calls, each given as
`(url, now, uniform draw, jitter)`, and collect the times of the calls at
which the pacing mode changed. -/
def runDelays : DelayState → List (String × ℚ × ℚ × ℚ) → DelayState × List ℚ
  | s, [] => (s, [])
  | s, (url, now, b, j) :: rest =>
    let s₁ := (get_delay s url now b j).2
    let r := runDelays s₁ rest
    if s₁.current_mode = s.current_mode then r else (r.1, now :: r.2)

/-- Two timestamps at least 60 seconds apart (mode-transition spacing). -/
def spaced (a b : ℚ) : Prop := 60 ≤ b - a

instance : IsTrans ℚ spaced where
  trans := by
    intro a b c hab hbc
    unfold spaced at *
    linarith

/-- The classified outcome of one network request in
`AmazonScraper.scrape_with_requests`: an exception during the request, a
non-200 status, a 200 body containing the block marker (`"captcha"`), or a
clean 200 body. -/
inductive ReqOutcome where
  | transportError
  | badStatus
  | blockedContent
  | ok
deriving DecidableEq, Repr

/-- Observable events of one `scrape_with_requests` run, in order. -/
inductive Ev where
  | delayCall (url : String)
  | selectCall (chosen : Option String)
  | request (viaProxy : Option String) (o : ReqOutcome)
  | failureReport (a : String)
  | successReport (a : String)
  | backoff (secs : Nat)
deriving DecidableEq, Repr

/-- The scraper's mutable collaborators: the proxy pool and the pacing state. -/
structure Scraper where
  pool : Pool
  delays : DelayState
deriving Repr

/-- The body of `scrape_with_requests`' `for attempt in range(3)` loop,
starting at iteration `i` with `fuel` iterations left. Each iteration calls
`delay_manager.wait(url)`, then `proxy_manager.get_proxy()`, then issues the
request whose classified outcome is `env i` (times and random draws per
iteration come from `times` and `draws`). A clean 200 marks the proxy
successful (if one was used) and returns; every other outcome marks the proxy
failed (if one was used), sleeps `2 ** attempt` seconds and retries. Returns
the result, the final state and the event trace. -/
def attemptLoop (env : Nat → ReqOutcome) (times : Nat → ℚ) (draws : Nat → ℚ × ℚ)
    (url : String) : Nat → Nat → Scraper → Option Unit × Scraper × List Ev
  | _, 0, st => (none, st, [])
  | i, fuel + 1, st =>
    let now := times i
    let ds := (get_delay st.delays url now (draws i).1 (draws i).2).2
    let sel := (get_proxy st.pool now).1
    let pool₁ := (get_proxy st.pool now).2
    let evs := [Ev.delayCall url, Ev.selectCall sel, Ev.request sel (env i)]
    if env i = ReqOutcome.ok then
      match sel with
      | some a => (some (), ⟨mark_proxy_success pool₁ a, ds⟩, evs ++ [Ev.successReport a])
      | none => (some (), ⟨pool₁, ds⟩, evs)
    else
      match sel with
      | some a =>
        let next := attemptLoop env times draws url (i + 1) fuel ⟨mark_proxy_failed pool₁ a now, ds⟩
        (next.1, next.2.1, evs ++ [Ev.failureReport a, Ev.backoff (2 ^ i)] ++ next.2.2)
      | none =>
        let next := attemptLoop env times draws url (i + 1) fuel ⟨pool₁, ds⟩
        (next.1, next.2.1, evs ++ [Ev.backoff (2 ^ i)] ++ next.2.2)

/-- `AmazonScraper.scrape_with_requests`: the bounded 3-attempt loop. -/
def scrape_with_requests (env : Nat → ReqOutcome) (times : Nat → ℚ) (draws : Nat → ℚ × ℚ)
    (url : String) (st : Scraper) : Option Unit × Scraper × List Ev :=
  attemptLoop env times draws url 0 3 st

/-- The outcome of the Selenium page load in `scrape_with_selenium`: a page
with product data, a page whose source contains the block marker
(`"captcha"`), or a timeout / driver error. -/
inductive SelOutcome where
  | pageOk
  | blocked
  | driverError
deriving DecidableEq, Repr

/-- `AmazonScraper.scrape_with_selenium`: on a clean page, extract and return;
on a detected captcha, fall through to `scrape_with_requests`; on a
timeout/driver error, return `None`. -/
def scrape_with_selenium (sel : SelOutcome) (env : Nat → ReqOutcome) (times : Nat → ℚ)
    (draws : Nat → ℚ × ℚ) (url : String) (st : Scraper) : Option Unit × Scraper × List Ev :=
  match sel with
  | .pageOk => (some (), st, [])
  | .driverError => (none, st, [])
  | .blocked => scrape_with_requests env times draws url st

/-- `AmazonScraper.scrape_product`: try Selenium first; if it yields no
result, fall back to `scrape_with_requests` (a second, fresh 3-attempt run,
whose request outcomes are given by `env₂`). -/
def scrape_product (sel : SelOutcome) (env₁ env₂ : Nat → ReqOutcome)
    (times₁ times₂ : Nat → ℚ) (draws₁ draws₂ : Nat → ℚ × ℚ) (url : String)
    (st : Scraper) : Option Unit × Scraper × List Ev :=
  let r₁ := scrape_with_selenium sel env₁ times₁ draws₁ url st
  match r₁.1 with
  | some x => (some x, r₁.2.1, r₁.2.2)
  | none =>
    let r₂ := scrape_with_requests env₂ times₂ draws₂ url r₁.2.1
    (r₂.1, r₂.2.1, r₁.2.2 ++ r₂.2.2)

/-- The structured record the extraction layer produces (its individual fields
are outside the claims; only its identity matters at the API boundary). -/
structure ProductData where
  fields : List (String × String)
deriving DecidableEq, Repr

/-- A Python value as seen by the `get_product_info` handler: `None`, a
coroutine object (the un-awaited result of calling an async function), or the
extracted record. -/
inductive PyVal where
  | pynone
  | coroutine (result : Option ProductData)
  | record (d : ProductData)
deriving DecidableEq, Repr

/-- Python's `x is None` test. -/
def is_none : PyVal → Bool
  | .pynone => true
  | _ => false

/-- What the FastAPI route hands back: an `HTTPException` with a status code,
or a value passed to the response serializer. -/
inductive ApiResponse where
  | httpError (status : Nat) (detail : String)
  | success (body : PyVal)
deriving DecidableEq, Repr

/-- The 404 detail string of `get_product_info`. -/
def notFoundDetail : String := "Product not found or error occurred while scraping"

/-- `main.get_product_info`, as written in the source: it calls the async
`scrape_amazon_product(asin)` WITHOUT `await`, so `product_data` is bound to
the coroutine object (never `None`); the `is None` check then decides between
raising the 404 `HTTPException` and returning `product_data` to the response
serializer. `fetched` is the value the coroutine would produce if awaited
(`None` exactly when all strategies are exhausted). -/
def get_product_info (fetched : Option ProductData) : ApiResponse :=
  let product_data : PyVal := PyVal.coroutine fetched
  if is_none product_data then ApiResponse.httpError 404 notFoundDetail
  else ApiResponse.success product_data

/-- The same handler with the coroutine awaited — the behaviour the rest of
`main.py` (the `is None` check and the 404 branch) is clearly written for. -/
def get_product_info_awaited (fetched : Option ProductData) : ApiResponse :=
  match fetched with
  | none => ApiResponse.httpError 404 notFoundDetail
  | some d => ApiResponse.success (PyVal.record d)

/-- Strict lexicographic "greater than" on triples. -/
def lexGtB3 (x y : ℚ × ℚ × ℚ) : Bool :=
  decide (y.1 < x.1) || (decide (y.1 = x.1) && lexGtB x.2 y.2)

/-- Modelled from the spec (claim C1): the selection key as the claim states
it — maximise the score, break ties by preferring the endpoint least recently
used (oldest `lastUsedAt`), with never-used endpoints most eligible. The
second component ranks never-used endpoints above all used ones; the third
prefers the oldest `last_used` value. -/
def claimKey (e : Endpoint) : ℚ × ℚ × ℚ :=
  (score e,
   (match e.last_used with | none => (1 : ℚ) | some _ => 0),
   (match e.last_used with | none => (0 : ℚ) | some t => -t))

/-- Modelled from the spec (claim C1): selection exactly as the claim words
it, over the same eligible set as the source `get_proxy`, to be compared with
the selection the source actually makes. -/
def claimSelect (pool : Pool) (now : ℚ) : Option String :=
  if pool.working_proxies.isEmpty then none
  else
    match availableOf pool now with
    | [] => none
    | p :: ps => some (pyMax (fun x y => lexGtB3 (claimKey x.2) (claimKey y.2)) p ps).1

/-- Two validated endpoints with identical scores whose `last_used` stamps
differ: "a" was used at time 1, "b" more recently at time 2. -/
def cxPool : Pool :=
  { proxies := ["a", "b"], working_proxies := ["a", "b"], failed_proxies := [],
    proxy_timeouts := [], store := [("a", ⟨0, 0, some 1⟩), ("b", ⟨0, 0, some 2⟩)] }

/-- Two validated endpoints with zero history (the scenario of claim C1). -/
def freshPool : Pool :=
  { proxies := ["a", "b"], working_proxies := ["a", "b"], failed_proxies := [],
    proxy_timeouts := [], store := [("a", ⟨0, 0, none⟩), ("b", ⟨0, 0, none⟩)] }

/-- A pool holding a single validated endpoint with zero history. -/
def singlePool : Pool :=
  { proxies := ["p1"], working_proxies := ["p1"], failed_proxies := [],
    proxy_timeouts := [], store := [("p1", ⟨0, 0, none⟩)] }

/-- The single-endpoint pool after three `mark_proxy_failed` calls at time 0. -/
def thriceFailed : Pool :=
  mark_proxy_failed (mark_proxy_failed (mark_proxy_failed singlePool "p1" 0) "p1" 0) "p1" 0

/-- A pool whose endpoint has accumulated two successes and one failure. -/
def seasonedPool : Pool :=
  { proxies := ["x"], working_proxies := ["x"], failed_proxies := [],
    proxy_timeouts := [], store := [("x", ⟨2, 1, none⟩)] }

/-- A pool whose endpoint has a cooldown deadline at time 5 (already past at
the selection time 10 used in the C8 witness). -/
def timedPool : Pool :=
  { proxies := ["x"], working_proxies := ["x"], failed_proxies := [],
    proxy_timeouts := [("x", 5)], store := [("x", ⟨0, 0, none⟩)] }

/-- A pacing state that has already seen five requests for "u" within the
last minute at time 100, with the last mode change long past. -/
def burstState : DelayState :=
  ⟨[("u", [50, 55, 60, 65, 70])], .normal, [], 0⟩

/-- A pacing state that has seen two requests for "u" in the last minute at
time 0, with a mode change just made (so the mode stays `normal`). -/
def calmState : DelayState :=
  ⟨[("u", [-10, -5])], .normal, [], 0⟩

/-- The retry discipline of the direct-request strategy exactly as claim C6
words it, as a predicate on the result and event trace from attempt `i`
onwards: each attempt calls the pacing delay, then selects a proxy, then
issues the request; a transport error, non-success status or blocked body
reports failure on the proxy (when one was used), backs off `2 ^ attempt`
seconds and retries; a clean success reports success on the proxy and returns
at once; after 3 failed attempts the strategy yields no content. -/
inductive DirectSpec : Nat → Option Unit → List Ev → Prop where
  | exhausted : DirectSpec 3 none []
  | succProxy (i : Nat) (h : i < 3) (u a : String) :
      DirectSpec i (some ())
        [Ev.delayCall u, Ev.selectCall (some a), Ev.request (some a) ReqOutcome.ok,
         Ev.successReport a]
  | succDirect (i : Nat) (h : i < 3) (u : String) :
      DirectSpec i (some ()) [Ev.delayCall u, Ev.selectCall none, Ev.request none ReqOutcome.ok]
  | failProxy (i : Nat) (h : i < 3) (u a : String) (o : ReqOutcome) (ho : o ≠ ReqOutcome.ok)
      (r : Option Unit) (rest : List Ev) :
      DirectSpec (i + 1) r rest →
      DirectSpec i r
        ([Ev.delayCall u, Ev.selectCall (some a), Ev.request (some a) o,
          Ev.failureReport a, Ev.backoff (2 ^ i)] ++ rest)
  | failDirect (i : Nat) (h : i < 3) (u : String) (o : ReqOutcome) (ho : o ≠ ReqOutcome.ok)
      (r : Option Unit) (rest : List Ev) :
      DirectSpec (i + 1) r rest →
      DirectSpec i r
        ([Ev.delayCall u, Ev.selectCall none, Ev.request none o, Ev.backoff (2 ^ i)] ++ rest)

/-! Helper lemmas about the association-list store. -/

theorem updateStore_cons (p : String × Endpoint) (rest : List (String × Endpoint))
    (a : String) (f : Endpoint → Endpoint) :
    updateStore (p :: rest) a f =
      (if p.1 = a then (p.1, f p.2) else p) :: updateStore rest a f := by
  simp only [updateStore, List.map_cons]

theorem lookupStore_cons (q : String × Endpoint) (rest : List (String × Endpoint)) (b : String) :
    lookupStore (q :: rest) b = if q.1 = b then some q.2 else lookupStore rest b := rfl

theorem lookupStore_updateStore_self (st : List (String × Endpoint)) (a : String)
    (f : Endpoint → Endpoint) :
    lookupStore (updateStore st a f) a = (lookupStore st a).map f := by
  induction st with
  | nil => rfl
  | cons p rest ih =>
    rw [updateStore_cons]
    by_cases h : p.1 = a
    · rw [if_pos h, lookupStore_cons, lookupStore_cons, if_pos h, if_pos h]
      rfl
    · rw [if_neg h, lookupStore_cons, lookupStore_cons, if_neg h, if_neg h]
      exact ih

theorem lookupStore_updateStore_other (st : List (String × Endpoint)) (a b : String)
    (f : Endpoint → Endpoint) (h : b ≠ a) :
    lookupStore (updateStore st a f) b = lookupStore st b := by
  induction st with
  | nil => rfl
  | cons p rest ih =>
    rw [updateStore_cons]
    by_cases hp : p.1 = a
    · have hb : ¬ p.1 = b := fun hh => h (hh ▸ hp)
      rw [if_pos hp, lookupStore_cons, lookupStore_cons, if_neg hb, if_neg hb]
      exact ih
    · rw [if_neg hp, lookupStore_cons, lookupStore_cons]
      by_cases hb : p.1 = b
      · rw [if_pos hb, if_pos hb]
      · rw [if_neg hb, if_neg hb]
        exact ih

/-! Helper lemmas about the Python `max` fold. -/

theorem pyMax_mem {α : Type} (gt : α → α → Bool) (b : α) (l : List α) :
    pyMax gt b l ∈ b :: l := by
  induction l generalizing b with
  | nil => simp [pyMax]
  | cons x xs ih =>
    simp only [pyMax]
    by_cases h : gt x b = true
    · rw [if_pos h]
      rcases List.mem_cons.mp (ih x) with h' | h'
      · exact List.mem_cons_of_mem _ (by simp [h'])
      · exact List.mem_cons_of_mem _ (List.mem_cons_of_mem _ h')
    · rw [if_neg h]
      rcases List.mem_cons.mp (ih b) with h' | h'
      · simp [h']
      · exact List.mem_cons_of_mem _ (List.mem_cons_of_mem _ h')

theorem pyMax_not_gt {α : Type} (gt : α → α → Bool)
    (H1 : ∀ p, gt p p = false)
    (H2 : ∀ p q r, gt p q = false → gt q r = false → gt p r = false)
    (H3 : ∀ p q, gt p q = true → gt q p = false)
    (b : α) (l : List α) :
    ∀ y ∈ b :: l, gt y (pyMax gt b l) = false := by
  induction l generalizing b with
  | nil =>
    intro y hy
    rcases List.mem_cons.mp hy with h | h
    · subst h
      exact H1 y
    · cases h
  | cons x xs ih =>
    intro y hy
    simp only [pyMax]
    by_cases h : gt x b = true
    · rw [if_pos h]
      rcases List.mem_cons.mp hy with h' | h'
      · subst h'
        exact H2 y x _ (H3 x y h) (ih x x (List.mem_cons_self x xs))
      · rcases List.mem_cons.mp h' with h'' | h''
        · subst h''
          exact ih y y (List.mem_cons_self y xs)
        · exact ih x y (List.mem_cons_of_mem _ h'')
    · rw [if_neg h]
      rcases List.mem_cons.mp hy with h' | h'
      · subst h'
        exact ih y y (List.mem_cons_self y xs)
      · rcases List.mem_cons.mp h' with h'' | h''
        · subst h''
          have hxb : gt y b = false := by simpa using h
          exact H2 y b _ hxb (ih b b (List.mem_cons_self b xs))
        · exact ih b y (List.mem_cons_of_mem _ h'')

/-! Helper lemmas about the lexicographic comparison used by `get_proxy`. -/

theorem lexGtB_irrefl (x : ℚ × ℚ) : lexGtB x x = false := by
  simp [lexGtB]

theorem lexGtB_compl_trans (p q r : ℚ × ℚ) (h₁ : lexGtB p q = false) (h₂ : lexGtB q r = false) :
    lexGtB p r = false := by
  simp only [lexGtB, Bool.or_eq_false_iff, Bool.and_eq_false_iff, decide_eq_false_iff_not,
    not_lt] at *
  obtain ⟨h₁a, h₁b⟩ := h₁
  obtain ⟨h₂a, h₂b⟩ := h₂
  refine ⟨le_trans h₁a h₂a, ?_⟩
  rcases h₁b with h | h
  · left
    intro hrp
    exact h (le_antisymm (by rw [← hrp]; exact h₂a) h₁a)
  · rcases h₂b with h' | h'
    · left
      intro hrp
      exact h' (le_antisymm (by rw [hrp]; exact h₁a) h₂a)
    · right
      exact le_trans h h'

theorem lexGtB_asymm (p q : ℚ × ℚ) (h : lexGtB p q = true) : lexGtB q p = false := by
  simp only [lexGtB, Bool.or_eq_true, Bool.and_eq_true, decide_eq_true_eq] at h
  simp only [lexGtB, Bool.or_eq_false_iff, Bool.and_eq_false_iff, decide_eq_false_iff_not,
    not_lt]
  rcases h with h | ⟨he, hl⟩
  · exact ⟨le_of_lt h, Or.inl fun hh => absurd (hh ▸ h) (lt_irrefl _)⟩
  · exact ⟨le_of_eq he, Or.inr (le_of_lt hl)⟩

theorem notLexGtB_iff (x y : ℚ × ℚ) : lexGtB x y = false ↔ lexLe x y := by
  simp only [lexGtB, lexLe, Bool.or_eq_false_iff, Bool.and_eq_false_iff,
    decide_eq_false_iff_not, not_lt]
  constructor
  · rintro ⟨h1, h2 | h2⟩
    · rcases lt_or_eq_of_le h1 with h | h
      · exact Or.inl h
      · exact absurd h.symm h2
    · rcases lt_or_eq_of_le h1 with h | h
      · exact Or.inl h
      · exact Or.inr ⟨h, h2⟩
  · rintro (h | ⟨he, hl⟩)
    · exact ⟨le_of_lt h, Or.inl fun hh => absurd (hh ▸ h) (lt_irrefl _)⟩
    · exact ⟨le_of_eq he, Or.inr hl⟩

/-- Any endpoint returned by `get_proxy` comes from the available list and
carries a selection key no available endpoint strictly exceeds. -/
theorem get_proxy_some_max (pool : Pool) (now : ℚ) (a : String)
    (h : (get_proxy pool now).1 = some a) :
    ∃ e, (a, e) ∈ availableOf pool now ∧
      ∀ q ∈ availableOf pool now, lexLe (selKey now q.2) (selKey now e) := by
  unfold get_proxy at h
  by_cases hw : pool.working_proxies.isEmpty
  · rw [if_pos hw] at h
    cases h
  · rw [if_neg hw] at h
    rcases hav : availableOf pool now with _ | ⟨p, ps⟩
    · rw [hav] at h
      cases h
    · rw [hav] at h
      simp only [Option.some.injEq] at h
      set gt := fun x y : String × Endpoint => lexGtB (selKey now x.2) (selKey now y.2) with hgt
      set chosen := pyMax gt p ps with hchosen
      refine ⟨chosen.2, ?_, ?_⟩
      · have hm : chosen ∈ p :: ps := pyMax_mem gt p ps
        have he : (a, chosen.2) = chosen := by
          rw [← h]
        rw [he]
        exact hm
      · intro q hq
        have hng : gt q chosen = false := by
          refine pyMax_not_gt gt ?_ ?_ ?_ p ps q hq
          · intro x
            exact lexGtB_irrefl _
          · intro x y z hxy hyz
            exact lexGtB_compl_trans _ _ _ hxy hyz
          · intro x y hxy
            exact lexGtB_asymm _ _ hxy
        exact (notLexGtB_iff _ _).mp hng

/-! Helper lemmas about the pacing controller. -/

theorem adjust_mode_cases (s : DelayState) (f : Nat) (now : ℚ) :
    ((adjust_mode s f now).current_mode = s.current_mode ∧
     (adjust_mode s f now).last_mode_change = s.last_mode_change) ∨
    ((adjust_mode s f now).current_mode ≠ s.current_mode ∧
     (adjust_mode s f now).last_mode_change = now ∧
     60 ≤ now - s.last_mode_change) := by
  unfold adjust_mode
  by_cases h₁ : now - s.last_mode_change < 60
  · rw [if_pos h₁]
    exact Or.inl ⟨rfl, rfl⟩
  · rw [if_neg h₁]
    set nm := if 5 < f then Mode.conservative else if f < 2 then Mode.aggressive else Mode.normal
      with hnm
    by_cases h₂ : nm = s.current_mode
    · rw [if_pos h₂]
      exact Or.inl ⟨rfl, rfl⟩
    · rw [if_neg h₂]
      exact Or.inr ⟨h₂, rfl, not_lt.mp h₁⟩

theorem get_delay_mode_cases (s : DelayState) (url : String) (now b j : ℚ) :
    ((get_delay s url now b j).2.current_mode = s.current_mode ∧
     (get_delay s url now b j).2.last_mode_change = s.last_mode_change) ∨
    ((get_delay s url now b j).2.current_mode ≠ s.current_mode ∧
     (get_delay s url now b j).2.last_mode_change = now ∧
     60 ≤ now - s.last_mode_change) := by
  have h := adjust_mode_cases
    { s with
        request_history :=
          histSet (cleanup_history s.request_history now) url
            (histLookup (cleanup_history s.request_history now) url ++ [now]) }
    (calculate_frequency (histLookup (cleanup_history s.request_history now) url ++ [now]) now)
    now
  exact h

theorem runDelays_chain (calls : List (String × ℚ × ℚ × ℚ)) :
    ∀ s : DelayState, List.Chain spaced s.last_mode_change (runDelays s calls).2 := by
  induction calls with
  | nil =>
    intro s
    simp only [runDelays]
    exact List.Chain.nil
  | cons c rest ih =>
    intro s
    obtain ⟨url, now, b, j⟩ := c
    simp only [runDelays]
    rcases get_delay_mode_cases s url now b j with ⟨hm, hl⟩ | ⟨hm, hl, hsp⟩
    · rw [if_pos hm]
      have h := ih (get_delay s url now b j).2
      rw [hl] at h
      exact h
    · rw [if_neg hm]
      refine List.Chain.cons hsp ?_
      have h := ih (get_delay s url now b j).2
      rw [hl] at h
      exact h

/-! Helper lemmas about the bounded attempt loop. -/

theorem attemptLoop_spec (env : Nat → ReqOutcome) (times : Nat → ℚ) (draws : Nat → ℚ × ℚ)
    (url : String) :
    ∀ (fuel i : Nat) (st : Scraper), i + fuel = 3 →
      DirectSpec i (attemptLoop env times draws url i fuel st).1
        (attemptLoop env times draws url i fuel st).2.2 := by
  intro fuel
  induction fuel with
  | zero =>
    intro i st hi
    have h3 : i = 3 := by omega
    subst h3
    exact DirectSpec.exhausted
  | succ f ih =>
    intro i st hi
    have hlt : i < 3 := by omega
    simp only [attemptLoop]
    by_cases henv : env i = ReqOutcome.ok
    · rw [if_pos henv]
      rcases hsel : (get_proxy st.pool (times i)).1 with _ | a
      · dsimp only
        rw [henv]
        exact DirectSpec.succDirect i hlt url
      · dsimp only
        rw [henv]
        exact DirectSpec.succProxy i hlt url a
    · rw [if_neg henv]
      rcases hsel : (get_proxy st.pool (times i)).1 with _ | a
      · dsimp only
        exact DirectSpec.failDirect i hlt url (env i) henv _ _ (ih (i + 1) _ (by omega))
      · dsimp only
        exact DirectSpec.failProxy i hlt url a (env i) henv _ _ (ih (i + 1) _ (by omega))

theorem attemptLoop_all_fail (env : Nat → ReqOutcome) (times : Nat → ℚ) (draws : Nat → ℚ × ℚ)
    (url : String) (h : ∀ n, env n ≠ ReqOutcome.ok) :
    ∀ (fuel i : Nat) (st : Scraper), (attemptLoop env times draws url i fuel st).1 = none := by
  intro fuel
  induction fuel with
  | zero =>
    intro i st
    rfl
  | succ f ih =>
    intro i st
    simp only [attemptLoop, if_neg (h i)]
    rcases hsel : (get_proxy st.pool (times i)).1 with _ | a
    · exact ih (i + 1) _
    · exact ih (i + 1) _

theorem attemptLoop_empty_working (env : Nat → ReqOutcome) (times : Nat → ℚ)
    (draws : Nat → ℚ × ℚ) (url : String) (henv : ∀ n, env n ≠ ReqOutcome.ok) :
    ∀ (fuel i : Nat) (st : Scraper), st.pool.working_proxies = [] →
      (attemptLoop env times draws url i fuel st).1 = none ∧
      (attemptLoop env times draws url i fuel st).2.1.pool = st.pool := by
  intro fuel
  induction fuel with
  | zero =>
    intro i st hw
    exact ⟨rfl, rfl⟩
  | succ f ih =>
    intro i st hw
    have hempty : st.pool.working_proxies.isEmpty = true := by
      rw [hw]
      rfl
    have hgp : get_proxy st.pool (times i) = (none, st.pool) := by
      unfold get_proxy
      rw [if_pos hempty]
    simp only [attemptLoop, hgp, if_neg (henv i)]
    exact ih (i + 1) _ hw

/-! Evaluation lemmas for the single-endpoint pool. -/

theorem get_proxy_single (sc fl : Nat) (lu : Option ℚ) (now : ℚ) :
    get_proxy ⟨["p1"], ["p1"], [], [], [("p1", ⟨sc, fl, lu⟩)]⟩ now =
      (some "p1", ⟨["p1"], ["p1"], [], [], [("p1", ⟨sc, fl, some now⟩)]⟩) := by
  norm_num [get_proxy, availableOf, lookupStore, lookupTimeout, pyMax, updateStore,
    List.filterMap_cons, List.filter_cons]

theorem mark_failed_single₀ (sc : Nat) (lu : Option ℚ) (now : ℚ) :
    mark_proxy_failed ⟨["p1"], ["p1"], [], [], [("p1", ⟨sc, 0, lu⟩)]⟩ "p1" now =
      ⟨["p1"], ["p1"], [], [], [("p1", ⟨sc, 1, lu⟩)]⟩ := by
  norm_num [mark_proxy_failed, lookupStore, updateStore]

theorem mark_failed_single₁ (sc : Nat) (lu : Option ℚ) (now : ℚ) :
    mark_proxy_failed ⟨["p1"], ["p1"], [], [], [("p1", ⟨sc, 1, lu⟩)]⟩ "p1" now =
      ⟨["p1"], ["p1"], [], [], [("p1", ⟨sc, 2, lu⟩)]⟩ := by
  norm_num [mark_proxy_failed, lookupStore, updateStore]

theorem mark_failed_single₂ (sc : Nat) (lu : Option ℚ) (now : ℚ) :
    mark_proxy_failed ⟨["p1"], ["p1"], [], [], [("p1", ⟨sc, 2, lu⟩)]⟩ "p1" now =
      ⟨["p1"], [], ["p1"], [("p1", now + 1800)], [("p1", ⟨sc, 3, lu⟩)]⟩ := by
  norm_num [mark_proxy_failed, lookupStore, updateStore, setTimeout, List.erase]

set_option maxHeartbeats 2000000 in
theorem singleProxy_all_fail (env : Nat → ReqOutcome) (times : Nat → ℚ)
    (draws : Nat → ℚ × ℚ) (url : String) (ds : DelayState)
    (h : ∀ n, env n ≠ ReqOutcome.ok) :
    (scrape_with_requests env times draws url ⟨singlePool, ds⟩).1 = none ∧
    (scrape_with_requests env times draws url ⟨singlePool, ds⟩).2.1.pool.working_proxies = [] ∧
    lookupStore (scrape_with_requests env times draws url ⟨singlePool, ds⟩).2.1.pool.store "p1" =
      some ⟨0, 3, some (times 2)⟩ := by
  simp only [scrape_with_requests, attemptLoop, singlePool, get_proxy_single,
    mark_failed_single₀, mark_failed_single₁, mark_failed_single₂,
    if_neg (h 0), if_neg (h 1), if_neg (h 2)]
  norm_num [lookupStore]

/-! The claim theorems. -/

/-- Claim C1, counterexample: selection as the claim words it (ties broken by
preferring the LEAST recently used endpoint) picks "a" from `cxPool` at time
10, but the source `get_proxy` picks "b" — its tie-break key
`-(now - last_used)` prefers the MOST recently used endpoint, so the claim as
stated is false on the code. -/
theorem claim_C1_counterexample :
    claimSelect cxPool 10 = some "a" ∧ (get_proxy cxPool 10).1 = some "b" ∧
    ("a" : String) ≠ "b" := by
  norm_num [claimSelect, get_proxy, availableOf, lookupStore, lookupTimeout, pyMax, lexGtB,
    lexGtB3, claimKey, selKey, score, cxPool, List.filterMap_cons, List.filter_cons, updateStore]
  decide

/-- Claim C1, amended: `select()` returns an eligible (validated,
non-cooling-down) endpoint whose key — the score
`successes / (successes + failures + 1)` with untried endpoints scoring 1.0,
tie-broken by `-(now - lastUsedAt)` (never-used endpoints most eligible, then
the MOST recently used preferred) — no eligible endpoint strictly exceeds;
and for a pool of two validated endpoints with zero history the first two
`select()` calls return the two distinct endpoints before any repeat. -/
theorem claim_C1 :
    (∀ (pool : Pool) (now : ℚ) (a : String), (get_proxy pool now).1 = some a →
      ∃ e, (a, e) ∈ availableOf pool now ∧
        ∀ q ∈ availableOf pool now, lexLe (selKey now q.2) (selKey now e)) ∧
    (get_proxy freshPool 1).1 = some "a" ∧
    (get_proxy (get_proxy freshPool 1).2 2).1 = some "b" ∧ ("a" : String) ≠ "b" := by
  refine ⟨get_proxy_some_max, ?_⟩
  norm_num [get_proxy, availableOf, lookupStore, lookupTimeout, pyMax, lexGtB, selKey, score,
    freshPool, List.filterMap_cons, List.filter_cons, updateStore]
  decide

/-- Witness for claim C1: the general conjunct applied at `cxPool`, time 10,
where `get_proxy` returns "b". -/
theorem claim_C1_witness :
    ∃ e, ("b", e) ∈ availableOf cxPool 10 ∧
      ∀ q ∈ availableOf cxPool 10, lexLe (selKey 10 q.2) (selKey 10 e) :=
  claim_C1.1 cxPool 10 "b" (by
    norm_num [get_proxy, availableOf, lookupStore, lookupTimeout, pyMax, lexGtB, selKey, score,
      cxPool, List.filterMap_cons, List.filter_cons, updateStore])

/-- Claim C2 (code bug evidence): after three `reportFailure` calls at time 0
the endpoint has `cooldownUntil = 1800` (30 minutes) and `failures = 3` (not
reset), and is excluded from selection during the cooldown (time 100); but
`mark_proxy_failed` also removed it from `working_proxies` permanently, so
`select()` still returns none long after the cooldown elapsed (time 10000),
contradicting the claim that the endpoint becomes eligible again — the
expiry test `datetime.now() > proxy_timeouts[...]` inside `get_proxy` is
dead code for such endpoints. -/
theorem claim_C2 :
    lookupTimeout thriceFailed.proxy_timeouts "p1" = some 1800 ∧
    (lookupStore thriceFailed.store "p1").map Endpoint.failures = some 3 ∧
    (get_proxy thriceFailed 100).1 = none ∧
    (get_proxy thriceFailed 10000).1 = none ∧
    thriceFailed.working_proxies = [] := by
  norm_num [thriceFailed, singlePool, mark_proxy_failed, get_proxy, availableOf, lookupStore,
    lookupTimeout, setTimeout, updateStore, List.filterMap_cons, List.filter_cons, List.erase]

/-- Claim C3 (code bug evidence): because `main.get_product_info` calls the
async `scrape_amazon_product` without `await`, the handler passes the
coroutine object to the response serializer even when fetching is exhausted
(`fetched = none`), and never raises the 404 `HTTPException`; the awaited
variant maps exhaustion to the 404 response as the claim states. -/
theorem claim_C3 :
    get_product_info none = ApiResponse.success (PyVal.coroutine none) ∧
    get_product_info none ≠ ApiResponse.httpError 404 notFoundDetail ∧
    get_product_info_awaited none = ApiResponse.httpError 404 notFoundDetail := by
  decide

/-- Claim C4, counterexample: at `burstState` the computed frequency is
6 = 3 + 3 and the mode becomes conservative with base range (5, 10); with the
uniform draw 10 and jitter 1/2 — both within the documented ranges — the
returned delay 567/16 exceeds the claimed bound `10 * 1.5 ^ 3 = 135/4`. -/
theorem claim_C4_counterexample :
    freqAfter burstState "u" 100 = 3 + 3 ∧
    base_delays (get_delay burstState "u" 100 10 (1/2)).2.current_mode = (5, 10) ∧
    ¬ (get_delay burstState "u" 100 10 (1/2)).1 ≤ 10 * (3 / 2) ^ 3 := by
  norm_num [freqAfter, burstState, get_delay, cleanup_history, calculate_frequency, histLookup,
    histSet, adjust_mode, List.filter_cons, List.countP_cons, List.countP_nil]
  decide

/-- Claim C4, amended: whenever the uniform draw lies in the base-delay range
of the mode in effect and the jitter lies in [-1/2, 1/2], and the computed
frequency is `3 + k`, the returned delay is strictly positive and bounded
above by `10.5 * 1.5 ^ k` (the claimed bound `10 * 1.5 ^ k` fails only by the
jitter margin 0.5 at the top of the conservative range). -/
theorem claim_C4 (s : DelayState) (url : String) (now b j : ℚ) (k : Nat)
    (hb₁ : (base_delays (get_delay s url now b j).2.current_mode).1 ≤ b)
    (hb₂ : b ≤ (base_delays (get_delay s url now b j).2.current_mode).2)
    (hj₁ : -(1/2) ≤ j) (hj₂ : j ≤ 1/2)
    (hf : freqAfter s url now = 3 + k) :
    0 < (get_delay s url now b j).1 ∧ (get_delay s url now b j).1 ≤ 21/2 * (3/2) ^ k := by
  have hmode : ∀ m : Mode, 1 ≤ (base_delays m).1 ∧ (base_delays m).2 ≤ 10 := by
    intro m
    cases m <;> norm_num [base_delays]
  have hb_lo : (1 : ℚ) ≤ b := le_trans (hmode _).1 hb₁
  have hb_hi : b ≤ 10 := le_trans hb₂ (hmode _).2
  have hsum_pos : 0 < b + j := by linarith
  have hsum_le : b + j ≤ 21/2 := by linarith
  simp only [get_delay, freqAfter] at *
  rw [hf]
  cases k with
  | zero =>
    have h3 : ¬ 3 < 3 + 0 := by omega
    rw [if_neg h3]
    constructor
    · exact hsum_pos
    · simpa using hsum_le
  | succ k' =>
    have h3 : 3 < 3 + (k' + 1) := by omega
    rw [if_pos h3]
    have hexp : 3 + (k' + 1) - 3 = k' + 1 := by omega
    rw [hexp]
    have hpow : (0 : ℚ) < (3/2) ^ (k' + 1) := pow_pos (by norm_num) _
    constructor
    · exact mul_pos hsum_pos hpow
    · exact mul_le_mul_of_nonneg_right hsum_le (le_of_lt hpow)

/-- Witness for claim C4: at `calmState`, time 0, draw 3 and jitter 0, the
frequency is 3 + 0, the mode stays normal with range (2, 5), and the theorem
yields a delay in (0, 21/2]. -/
theorem claim_C4_witness :
    0 < (get_delay calmState "u" 0 3 0).1 ∧
    (get_delay calmState "u" 0 3 0).1 ≤ 21/2 * (3/2) ^ 0 :=
  claim_C4 calmState "u" 0 3 0 0
    (by norm_num [calmState, get_delay, cleanup_history, calculate_frequency, histLookup,
      histSet, adjust_mode, base_delays, List.filter_cons, List.countP_cons, List.countP_nil])
    (by norm_num [calmState, get_delay, cleanup_history, calculate_frequency, histLookup,
      histSet, adjust_mode, base_delays, List.filter_cons, List.countP_cons, List.countP_nil])
    (by norm_num)
    (by norm_num)
    (by norm_num [freqAfter, calmState, cleanup_history, calculate_frequency, histLookup,
      List.filter_cons, List.countP_cons, List.countP_nil])

/-- Claim C5: with a single validated proxy, when the browser strategy
detects the block marker and every direct-request attempt fails (in both the
nested fallback run and the top-level fallback run), `scrape_product` returns
the terminal exhausted failure (none) and the proxy has had its failure
counter incremented exactly 3 times — it entered cooldown after the third
failure and is no longer selected, so the remaining attempts run without a
proxy. -/
theorem claim_C5 (env₁ env₂ : Nat → ReqOutcome) (times₁ times₂ : Nat → ℚ)
    (draws₁ draws₂ : Nat → ℚ × ℚ) (url : String) (ds : DelayState)
    (h₁ : ∀ n, env₁ n ≠ ReqOutcome.ok) (h₂ : ∀ n, env₂ n ≠ ReqOutcome.ok) :
    (scrape_product SelOutcome.blocked env₁ env₂ times₁ times₂ draws₁ draws₂ url
        ⟨singlePool, ds⟩).1 = none ∧
    lookupStore (scrape_product SelOutcome.blocked env₁ env₂ times₁ times₂ draws₁ draws₂ url
        ⟨singlePool, ds⟩).2.1.pool.store "p1" = some ⟨0, 3, some (times₁ 2)⟩ := by
  obtain ⟨hr₁, hw₁, hs₁⟩ := singleProxy_all_fail env₁ times₁ draws₁ url ds h₁
  have hsel : scrape_with_selenium SelOutcome.blocked env₁ times₁ draws₁ url ⟨singlePool, ds⟩ =
      scrape_with_requests env₁ times₁ draws₁ url ⟨singlePool, ds⟩ := rfl
  simp only [scrape_product, hsel, hr₁]
  obtain ⟨hr₂, hp₂⟩ := attemptLoop_empty_working env₂ times₂ draws₂ url h₂ 3 0
    (scrape_with_requests env₁ times₁ draws₁ url ⟨singlePool, ds⟩).2.1 hw₁
  refine ⟨hr₂, ?_⟩
  show lookupStore (attemptLoop env₂ times₂ draws₂ url 0 3
    (scrape_with_requests env₁ times₁ draws₁ url ⟨singlePool, ds⟩).2.1).2.1.pool.store "p1" = _
  rw [hp₂]
  exact hs₁

/-- Witness for claim C5: concrete oracles in which every request has a
non-success status. -/
theorem claim_C5_witness :
    (scrape_product SelOutcome.blocked (fun _ => ReqOutcome.badStatus)
        (fun _ => ReqOutcome.transportError) (fun _ => 0) (fun _ => 0) (fun _ => (0, 0))
        (fun _ => (0, 0)) "u" ⟨singlePool, ⟨[], Mode.normal, [], 0⟩⟩).1 = none ∧
    lookupStore (scrape_product SelOutcome.blocked (fun _ => ReqOutcome.badStatus)
        (fun _ => ReqOutcome.transportError) (fun _ => 0) (fun _ => 0) (fun _ => (0, 0))
        (fun _ => (0, 0)) "u" ⟨singlePool, ⟨[], Mode.normal, [], 0⟩⟩).2.1.pool.store "p1" =
      some ⟨0, 3, some 0⟩ :=
  claim_C5 (fun _ => ReqOutcome.badStatus) (fun _ => ReqOutcome.transportError)
    (fun _ => 0) (fun _ => 0) (fun _ => (0, 0)) (fun _ => (0, 0)) "u" ⟨[], Mode.normal, [], 0⟩
    (fun _ hk => ReqOutcome.noConfusion hk) (fun _ hk => ReqOutcome.noConfusion hk)

/-- Claim C6: every run of the direct-request strategy refines the
`DirectSpec` discipline from attempt 0 — at most 3 attempts, each one calling
the pacing delay, then proxy selection, then the request; failures report
failure on the proxy used and back off `2 ^ attempt` seconds before the
retry, a clean success reports success and returns at once — and if every
request fails the strategy yields no content. -/
theorem claim_C6 (env : Nat → ReqOutcome) (times : Nat → ℚ) (draws : Nat → ℚ × ℚ)
    (url : String) (st : Scraper) :
    DirectSpec 0 (scrape_with_requests env times draws url st).1
      (scrape_with_requests env times draws url st).2.2 ∧
    ((∀ n, env n ≠ ReqOutcome.ok) → (scrape_with_requests env times draws url st).1 = none) :=
  ⟨attemptLoop_spec env times draws url 3 0 st rfl,
   fun h => attemptLoop_all_fail env times draws url h 3 0 st⟩

/-- Witness for claim C6: the all-fail conjunct applied to a concrete run in
which every request hits a transport error. -/
theorem claim_C6_witness :
    (scrape_with_requests (fun _ => ReqOutcome.transportError) (fun _ => 0) (fun _ => (0, 0))
      "u" ⟨singlePool, ⟨[], Mode.normal, [], 0⟩⟩).1 = none :=
  (claim_C6 (fun _ => ReqOutcome.transportError) (fun _ => 0) (fun _ => (0, 0)) "u"
    ⟨singlePool, ⟨[], Mode.normal, [], 0⟩⟩).2 (fun _ hk => ReqOutcome.noConfusion hk)

/-- Claim C7: `reportSuccess` increments `successes` by exactly one, never
increases `failures`, decrements `failures` by exactly one when it is
positive, leaves it at zero when it is zero, and leaves `last_used`
unchanged. -/
theorem claim_C7 (pool : Pool) (a : String) (e : Endpoint)
    (h : lookupStore pool.store a = some e) :
    ∃ e', lookupStore (mark_proxy_success pool a).store a = some e' ∧
      e'.successes = e.successes + 1 ∧
      e'.failures ≤ e.failures ∧
      (0 < e.failures → e'.failures = e.failures - 1) ∧
      (e.failures = 0 → e'.failures = 0) ∧
      e'.last_used = e.last_used := by
  refine ⟨{ e with
              successes := e.successes + 1
              failures := if 0 < e.failures then e.failures - 1 else e.failures },
    ?_, rfl, ?_, ?_, ?_, rfl⟩
  · simp only [mark_proxy_success]
    rw [lookupStore_updateStore_self, h]
    rfl
  · by_cases hf : 0 < e.failures
    · simp only [if_pos hf]
      omega
    · simp only [if_neg hf]
      exact le_refl _
  · intro hf
    simp only [if_pos hf]
  · intro hf
    simp [hf]

/-- Witness for claim C7: applied to `seasonedPool`, whose endpoint has two
successes and one failure. -/
theorem claim_C7_witness :
    ∃ e', lookupStore (mark_proxy_success seasonedPool "x").store "x" = some e' ∧
      e'.successes = 2 + 1 ∧
      e'.failures ≤ 1 ∧
      (0 < (1 : Nat) → e'.failures = 1 - 1) ∧
      ((1 : Nat) = 0 → e'.failures = 0) ∧
      e'.last_used = none :=
  claim_C7 seasonedPool "x" ⟨2, 1, none⟩ (by norm_num [seasonedPool, lookupStore])

/-- Claim C8: for every pool state, `select()` never returns an endpoint
whose cooldown deadline lies strictly in the future at the moment of
selection. -/
theorem claim_C8 (pool : Pool) (now : ℚ) (a : String) (t : ℚ)
    (h : (get_proxy pool now).1 = some a)
    (ht : lookupTimeout pool.proxy_timeouts a = some t) :
    ¬ now < t := by
  obtain ⟨e, hmem, -⟩ := get_proxy_some_max pool now a h
  have hf := (List.mem_filter.mp hmem).2
  simp only [ht] at hf
  have hlt : t < now := of_decide_eq_true hf
  exact fun hc => absurd hc (not_lt.mpr (le_of_lt hlt))

/-- Witness for claim C8: `timedPool` at time 10, whose endpoint carries the
already-expired cooldown deadline 5, is selected and the deadline is not in
the future. -/
theorem claim_C8_witness : ¬ (10 : ℚ) < 5 :=
  claim_C8 timedPool 10 "x" 5
    (by norm_num [timedPool, get_proxy, availableOf, lookupStore, lookupTimeout, pyMax,
      updateStore, List.filterMap_cons, List.filter_cons])
    (by norm_num [timedPool, lookupTimeout])

/-- Claim C9: over any sequence of `get_delay` calls from any starting state,
any two pacing-mode transitions are separated by at least 60 seconds. -/
theorem claim_C9 (s : DelayState) (calls : List (String × ℚ × ℚ × ℚ)) :
    List.Pairwise spaced (runDelays s calls).2 :=
  (List.chain_iff_pairwise.mp (runDelays_chain calls s)).of_cons

/-- Claim C10: `reportSuccess` leaves the working/failed partition, the
cooldown map, the configured list and every other endpoint untouched, changes
only the counters of the given endpoint (keeping its `last_used`), and no
number of `reportSuccess` calls ever changes the working set — in particular
a cooled-down endpoint is never restored to it. -/
theorem claim_C10 (pool : Pool) (a : String) :
    (mark_proxy_success pool a).working_proxies = pool.working_proxies ∧
    (mark_proxy_success pool a).failed_proxies = pool.failed_proxies ∧
    (mark_proxy_success pool a).proxy_timeouts = pool.proxy_timeouts ∧
    (mark_proxy_success pool a).proxies = pool.proxies ∧
    (∀ b, b ≠ a → lookupStore (mark_proxy_success pool a).store b = lookupStore pool.store b) ∧
    (∀ e, lookupStore pool.store a = some e →
      lookupStore (mark_proxy_success pool a).store a =
        some { e with
                 successes := e.successes + 1
                 failures := if 0 < e.failures then e.failures - 1 else e.failures }) ∧
    (∀ l : List String, (l.foldl mark_proxy_success pool).working_proxies =
      pool.working_proxies) := by
  refine ⟨rfl, rfl, rfl, rfl, ?_, ?_, ?_⟩
  · intro b hb
    simp only [mark_proxy_success]
    exact lookupStore_updateStore_other pool.store a b _ hb
  · intro e he
    simp only [mark_proxy_success]
    rw [lookupStore_updateStore_self, he]
    rfl
  · intro l
    induction l generalizing pool with
    | nil => rfl
    | cons x xs ih =>
      rw [List.foldl_cons]
      rw [ih (mark_proxy_success pool x)]
      rfl

/-- Witness for claim C10: at `cxPool`, a success report on "a" keeps the
working set and the record of "b" unchanged. -/
theorem claim_C10_witness :
    (mark_proxy_success cxPool "a").working_proxies = cxPool.working_proxies ∧
    lookupStore (mark_proxy_success cxPool "a").store "b" = lookupStore cxPool.store "b" :=
  ⟨(claim_C10 cxPool "a").1, (claim_C10 cxPool "a").2.2.2.2.1 "b" (by decide)⟩
